import Mathlib

/-!
# Verification of the vocabulary-drilling scheduling engine

Shallow embedding of the scheduling core of the `vocab_drilling` repository:

* the level-based interval scheduler (`src/lib/level-system`, appearing in
  `src/src/lib/csv-parser.ts`): `LEVEL_INTERVALS`, `calculateNextReviewDate`,
  `advanceLevel`, `dropLevel`,
* the in-session queue engine (`src/lib/session-queue`, same file):
  `buildInitialQueue`, `getCorrectReinsertPosition`, `getWrongReinsertPosition`,
  `processAnswer`,
* the store actions `submitAnswer` and `completeSession`
  (`src/unnamed/part_003`, the Zustand store built on the level system).

Modelling conventions:

* Dates are modelled as integer day counts (`Int`); the source's
  `Date`/ISO-string timestamps become day numbers, `setDate(+n)` becomes `+ n`,
  and the ten-calendar-year push for level 8 becomes a fixed 3650-day constant.
  Per-answer timestamp fields (`lastReviewDate`, record timestamps) are
  irrelevant to every claim and are omitted from the record types.
* `Math.floor(Math.random() * k)`, a draw in `[0, k)`, is modelled by an
  explicit random-source parameter `jitter : Nat` reduced as `jitter % k`.
* JavaScript `throw` is modelled with `Except String`: an `.error` result means
  the exception propagated and the store state was left unchanged (in the
  source, Zustand state changes only via `set`, which the throw skips).
* `Math.round(100 * c / t)` on non-negative operands is `⌊100c/t + 1/2⌋`,
  i.e. `(200 * c + t) / (2 * t)` in natural division.
-/

namespace VocabDrill

/-- A session-queue entry: a word reference plus its in-session streak
(`QueueEntry` in `src/types`). -/
structure QueueEntry where
  wordId : String
  sessionCorrectStreak : Nat
  deriving DecidableEq, Repr

/-- `list.splice(pos, 0, a)`: insert `a` at index `pos` (appends when
`pos ≥ length`). -/
def insertAt (pos : Nat) (a : α) (l : List α) : List α :=
  l.take pos ++ a :: l.drop pos

/-- Reinsert position for a correct answer
(`getCorrectReinsertPosition` in `src/src/lib/csv-parser.ts`):
streak 1 targets 5–6, streak 2 targets 10–12, otherwise (streak 3) 20;
the target is clamped to the remaining queue length. -/
def getCorrectReinsertPosition (newStreak : Nat) (queueLength : Nat)
    (jitter : Nat) : Nat :=
  let target : Nat :=
    if newStreak = 1 then 5 + jitter % 2
    else if newStreak = 2 then 10 + jitter % 3
    else 20
  min target queueLength

/-- Reinsert position for a wrong answer
(`getWrongReinsertPosition` in `src/src/lib/csv-parser.ts`):
target 2–3, clamped to the remaining queue length. -/
def getWrongReinsertPosition (queueLength : Nat) (jitter : Nat) : Nat :=
  min (2 + jitter % 2) queueLength

/-- Result record of `processAnswer`. -/
structure ProcessAnswerResult where
  newQueue : List QueueEntry
  entry : QueueEntry
  wasMastered : Bool
  deriving DecidableEq, Repr

/-- `processAnswer` from `src/src/lib/csv-parser.ts`: pop the head entry
(`none` models the `throw` on an empty queue); on a correct answer increment
the streak, removing the entry at streak ≥ 4 (mastered), otherwise reinserting
at the streak-based position; on a wrong answer reset the streak to 0 and
reinsert near the front. -/
def processAnswer (queue : List QueueEntry) (isCorrect : Bool) (jitter : Nat) :
    Option ProcessAnswerResult :=
  match queue with
  | [] => none
  | front :: rest =>
    if isCorrect then
      let newStreak := front.sessionCorrectStreak + 1
      if newStreak ≥ 4 then
        some { newQueue := rest
               entry := { front with sessionCorrectStreak := newStreak }
               wasMastered := true }
      else
        let pos := getCorrectReinsertPosition newStreak rest.length jitter
        let updatedEntry : QueueEntry :=
          { front with sessionCorrectStreak := newStreak }
        some { newQueue := insertAt pos updatedEntry rest
               entry := updatedEntry
               wasMastered := false }
    else
      let pos := getWrongReinsertPosition rest.length jitter
      let updatedEntry : QueueEntry := { front with sessionCorrectStreak := 0 }
      some { newQueue := insertAt pos updatedEntry rest
             entry := updatedEntry
             wasMastered := false }

/-- `LEVEL_INTERVALS` from the level system in `src/src/lib/csv-parser.ts`:
days until the next review for levels 0–7; `none` models the source's `null`
for level 8 ("mastered forever"). Levels outside 0–8 never arise in the
claims (the source record is simply undefined there). -/
def LEVEL_INTERVALS (level : Int) : Option Int :=
  if level = 0 then some 0
  else if level = 1 then some 1
  else if level = 2 then some 3
  else if level = 3 then some 7
  else if level = 4 then some 14
  else if level = 5 then some 30
  else if level = 6 then some 60
  else if level = 7 then some 120
  else none

/-- Ten calendar years, as the fixed day count used to model
`next.setFullYear(next.getFullYear() + 10)`. -/
def TEN_YEARS_IN_DAYS : Int := 3650

/-- `calculateNextReviewDate`: the next review day computed from a level and a
start day; the `null` interval of level 8 schedules far into the future. -/
def calculateNextReviewDate (level : Int) (fromDay : Int) : Int :=
  match LEVEL_INTERVALS level with
  | none => fromDay + TEN_YEARS_IN_DAYS
  | some interval => fromDay + interval

/-- `advanceLevel`: advance a level by 1, capped at 8. -/
def advanceLevel (level : Int) : Int := min 8 (level + 1)

/-- `dropLevel`: drop a level by 2, floored at 0. -/
def dropLevel (level : Int) : Int := max 0 (level - 2)

/-- Word status enum (`'new' | 'learning' | 'learned'` in `src/types`). -/
inductive WordStatus where
  | new
  | learning
  | learned
  deriving DecidableEq, Repr

/-- The fields of a `Word` that the scheduling core reads or writes.
Timestamp fields not consulted by any claim (`lastReviewDate`, creation
metadata, the vocabulary strings other than `portuguese`) are omitted;
dates are day counts. -/
structure Word where
  id : String
  portuguese : String
  groupId : String
  level : Int
  nextReviewDate : Int
  totalAttempts : Nat
  totalCorrect : Nat
  totalWrong : Nat
  isMuted : Bool
  status : WordStatus
  deriving DecidableEq, Repr

/-- Model of JavaScript `String.prototype.toLowerCase`: per-character lower
casing (ASCII case folding; the accented letters in this application's data
are already lower case wherever case matters to a claim). Defined over the
character list so that concrete instances evaluate. -/
def jsToLower (s : String) : String := ⟨s.data.map Char.toLower⟩

/-- Model of JavaScript `String.prototype.trim`: strip leading and trailing
whitespace. -/
def jsTrim (s : String) : String :=
  ⟨((s.data.dropWhile Char.isWhitespace).reverse.dropWhile Char.isWhitespace).reverse⟩

/-- Fold one precomposed Latin letter to its base letter: the model of
lower-case NFD followed by removal of combining marks U+0300–U+036F
(`normalizeString` in `src/src/lib/utils.ts`), for the alphabet the
application uses. -/
def stripDiacritic (c : Char) : Char :=
  if c = 'á' ∨ c = 'â' ∨ c = 'ã' ∨ c = 'à' ∨ c = 'ä' then 'a'
  else if c = 'é' ∨ c = 'ê' ∨ c = 'è' ∨ c = 'ë' then 'e'
  else if c = 'í' ∨ c = 'î' ∨ c = 'ì' ∨ c = 'ï' then 'i'
  else if c = 'ó' ∨ c = 'ô' ∨ c = 'õ' ∨ c = 'ò' ∨ c = 'ö' then 'o'
  else if c = 'ú' ∨ c = 'û' ∨ c = 'ù' ∨ c = 'ü' then 'u'
  else if c = 'ç' then 'c'
  else c

/-- `normalizeString`: lower-case, trim, strip diacritics. -/
def normalizeString (s : String) : String :=
  ⟨(jsTrim (jsToLower s)).data.map stripDiacritic⟩

/-- `isNearMatch` from `src/src/lib/utils.ts`: normalized strings match but
the case-folded trimmed strings do not. -/
def isNearMatch (userAnswer correctAnswer : String) : Bool :=
  normalizeString userAnswer == normalizeString correctAnswer &&
  !(jsTrim (jsToLower userAnswer) == jsTrim (jsToLower correctAnswer))

/-- An entry of the session's append-only answer log (`WordResult` in
`src/types`); the timestamp field is omitted. -/
structure WordResult where
  wordId : String
  userAnswer : String
  correctAnswer : String
  isCorrect : Bool
  isNearMatch : Bool
  deriving DecidableEq, Repr

/-- A drilling session (`DrillSession`); `completedAt = none` while active. -/
structure DrillSession where
  groupId : String
  completedAt : Option Int
  wordResults : List WordResult
  accuracy : Nat
  deriving DecidableEq, Repr

/-- A word group (`WordGroup`): the fields the completion logic touches. -/
structure WordGroup where
  id : String
  isUnlocked : Bool
  completedSessions : Nat
  accuracy : Nat
  deriving DecidableEq, Repr

/-- The application-level bookkeeping (`AppState`) completion updates. -/
structure AppState where
  totalWordsLearned : Nat
  overallAccuracy : Nat
  dailyStreak : Nat
  lastSessionDate : Option Int
  deriving DecidableEq, Repr

/-- The slice of the Zustand store (`src/unnamed/part_003`) that
`submitAnswer` and `completeSession` read and write. -/
structure StoreState where
  words : List Word
  groups : List WordGroup
  sessions : List DrillSession
  currentSession : Option DrillSession
  sessionQueue : List QueueEntry
  sessionMasteredIds : List String
  appState : AppState
  error : Option String
  deriving DecidableEq, Repr

/-- `calculateAccuracy` from `src/src/lib/utils.ts`:
`Math.round((correct / total) * 100)`, 0 when `total = 0`. On non-negative
operands `Math.round x = ⌊x + 1/2⌋`, i.e. `(200c + t) / (2t)` in `Nat`. -/
def calculateAccuracy (correct total : Nat) : Nat :=
  if total = 0 then 0 else (200 * correct + total) / (2 * total)

/-- `submitAnswer` from the store (`src/unnamed/part_003`, second store):
guards, correctness judgment, counter updates, log append, and the queue
update — `processAnswer` on a correct answer, an in-place streak reset of the
head on a wrong answer. `.error` models the propagated `throw` (no `set` has
run, so the store is unchanged). -/
def submitAnswer (s : StoreState) (wordId : String) (answer : String)
    (jitter : Nat) : Except String StoreState :=
  match s.currentSession with
  | none => .ok { s with error := some "No active session" }
  | some currentSession =>
    match s.words.find? (fun w => w.id == wordId) with
    | none => .ok { s with error := some "Word not found" }
    | some word =>
      let isCorrect := jsToLower (jsTrim answer) == jsToLower word.portuguese
      let nearMatch := isNearMatch answer word.portuguese
      let status :=
        if word.status == WordStatus.new && word.totalAttempts == 0 then
          WordStatus.learning
        else word.status
      let updatedWord : Word :=
        { word with
          totalAttempts := word.totalAttempts + 1
          totalCorrect := word.totalCorrect + (if isCorrect then 1 else 0)
          totalWrong := word.totalWrong + (if isCorrect then 0 else 1)
          status := status }
      let wordResult : WordResult :=
        { wordId := wordId
          userAnswer := answer
          correctAnswer := word.portuguese
          isCorrect := isCorrect
          isNearMatch := nearMatch }
      if isCorrect then
        match processAnswer s.sessionQueue true jitter with
        | none => .error "Cannot process answer on empty queue"
        | some res =>
          let newMasteredIds :=
            if res.wasMastered then s.sessionMasteredIds ++ [wordId]
            else s.sessionMasteredIds
          .ok { s with
            words := s.words.map (fun w => if w.id == wordId then updatedWord else w)
            currentSession := some { currentSession with
              wordResults := currentSession.wordResults ++ [wordResult] }
            sessionQueue := res.newQueue
            sessionMasteredIds := newMasteredIds }
      else
        let updatedQueue :=
          match s.sessionQueue with
          | [] => s.sessionQueue
          | h :: t => { h with sessionCorrectStreak := 0 } :: t
        .ok { s with
          words := s.words.map (fun w => if w.id == wordId then updatedWord else w)
          currentSession := some { currentSession with
            wordResults := currentSession.wordResults ++ [wordResult] }
          sessionQueue := updatedQueue }

/-- `completeSession` from the store (`src/unnamed/part_003`): session
accuracy, per-word level changes (mastered → advance, any wrong → drop,
else unchanged) with recomputed review dates and statuses, group stats and
next-group unlock, overall stats, and the daily practice streak. A missing
current session or group makes the whole call a no-op (the source `return`s
before `set`). -/
def completeSession (s : StoreState) (today : Int) : StoreState :=
  match s.currentSession with
  | none => s
  | some currentSession =>
    let correctAnswers := (currentSession.wordResults.filter (fun r => r.isCorrect)).length
    let totalAnswers := currentSession.wordResults.length
    let sessionAccuracy := calculateAccuracy correctAnswers totalAnswers
    let completedSession : DrillSession :=
      { currentSession with completedAt := some today, accuracy := sessionAccuracy }
    let sessionWordIds := currentSession.wordResults.map (fun r => r.wordId)
    let wordsWithWrongAnswer :=
      (currentSession.wordResults.filter (fun r => !r.isCorrect)).map (fun r => r.wordId)
    let masteredIds := s.sessionMasteredIds
    let updatedWords := s.words.map (fun w =>
      if !(sessionWordIds.contains w.id) then w
      else
        let newLevel :=
          if masteredIds.contains w.id then advanceLevel w.level
          else if wordsWithWrongAnswer.contains w.id then dropLevel w.level
          else w.level
        let newStatus : WordStatus :=
          if newLevel ≥ 6 then WordStatus.learned
          else if w.totalAttempts > 0 then WordStatus.learning
          else WordStatus.new
        { w with
          level := newLevel
          nextReviewDate := calculateNextReviewDate newLevel today
          status := newStatus })
    match s.groups.find? (fun g => g.id == currentSession.groupId) with
    | none => s
    | some group =>
      let groupWords := updatedWords.filter (fun w => w.groupId == group.id)
      let groupCorrect := groupWords.foldl (fun sum w => sum + w.totalCorrect) 0
      let groupTotal := groupWords.foldl (fun sum w => sum + w.totalAttempts) 0
      let groupAccuracy := calculateAccuracy groupCorrect groupTotal
      let updatedGroup : WordGroup :=
        { group with
          completedSessions := group.completedSessions + 1
          accuracy := groupAccuracy }
      let shouldUnlockNext := groupAccuracy ≥ 80 ∧ updatedGroup.completedSessions ≥ 2
      let groups1 := s.groups.map (fun g => if g.id == group.id then updatedGroup else g)
      let updatedGroups :=
        if shouldUnlockNext then
          let currentGroupIndex := groups1.findIdx (fun g => g.id == group.id)
          let nextGroupIndex := currentGroupIndex + 1
          match groups1[nextGroupIndex]? with
          | some nextGroup =>
            groups1.set nextGroupIndex { nextGroup with isUnlocked := true }
          | none => groups1
        else groups1
      let totalCorrect := updatedWords.foldl (fun sum w => sum + w.totalCorrect) 0
      let totalSeen := updatedWords.foldl (fun sum w => sum + w.totalAttempts) 0
      let overallAccuracy := calculateAccuracy totalCorrect totalSeen
      let totalWordsLearned :=
        (updatedWords.filter (fun w => w.status == WordStatus.learned)).length
      let dailyStreak :=
        match s.appState.lastSessionDate with
        | none => 1
        | some lastSession =>
          if lastSession = today then s.appState.dailyStreak
          else if lastSession = today - 1 then s.appState.dailyStreak + 1
          else 1
      { s with
        words := updatedWords
        sessions := s.sessions ++ [completedSession]
        groups := updatedGroups
        currentSession := some completedSession
        appState := { s.appState with
          totalWordsLearned := totalWordsLearned
          overallAccuracy := overallAccuracy
          dailyStreak := dailyStreak
          lastSessionDate := some today } }

/-- The `while` loop of `buildInitialQueue` (source-faithful, producing queue
entries): with review words left and 5 consecutive new words placed, force a
review word; otherwise take the next new word while any remain; otherwise
drain the review words. -/
def buildQueueLoop : List Word → List Word → Nat → List QueueEntry
  | [], [], _ => []
  | ns, r :: rs, consecutiveNew =>
    if 5 ≤ consecutiveNew then
      { wordId := r.id, sessionCorrectStreak := 0 } :: buildQueueLoop ns rs 0
    else
      match ns with
      | n :: ns2 =>
        { wordId := n.id, sessionCorrectStreak := 0 } ::
          buildQueueLoop ns2 (r :: rs) (consecutiveNew + 1)
      | [] => { wordId := r.id, sessionCorrectStreak := 0 } :: buildQueueLoop [] rs 0
  | n :: ns, [], consecutiveNew =>
    { wordId := n.id, sessionCorrectStreak := 0 } :: buildQueueLoop ns [] (consecutiveNew + 1)
termination_by ns rs _ => ns.length + rs.length
decreasing_by all_goals simp [List.length_cons]

/-- `buildInitialQueue` from `src/src/lib/csv-parser.ts`: cap the candidates
to `sessionGoal`, partition into new (`totalAttempts = 0`) and review
(`totalAttempts > 0`) words, and run the throttled interleaving loop. -/
def buildInitialQueue (words : List Word) (sessionGoal : Nat) : List QueueEntry :=
  let limited := words.take sessionGoal
  let newWords := limited.filter (fun w => w.totalAttempts == 0)
  let reviewWords := limited.filter (fun w => decide (0 < w.totalAttempts))
  buildQueueLoop newWords reviewWords 0

/-- The same interleaving loop, abstracted over the element type (the entry
construction of `buildQueueLoop` is factored out; see
`buildQueueLoop_eq_map`). -/
def interleaveLoop {α : Type} : List α → List α → Nat → List α
  | [], [], _ => []
  | ns, r :: rs, consecutiveNew =>
    if 5 ≤ consecutiveNew then
      r :: interleaveLoop ns rs 0
    else
      match ns with
      | n :: ns2 => n :: interleaveLoop ns2 (r :: rs) (consecutiveNew + 1)
      | [] => r :: interleaveLoop [] rs 0
  | n :: ns, [], consecutiveNew => n :: interleaveLoop ns [] (consecutiveNew + 1)
termination_by ns rs _ => ns.length + rs.length
decreasing_by all_goals simp [List.length_cons]

/-- The queue entry `buildInitialQueue` pushes for a word. -/
def entryOfWord (w : Word) : QueueEntry :=
  { wordId := w.id, sessionCorrectStreak := 0 }

/-- Run a sequence of `processAnswer` transitions on a queue; each element of
`answers` is the correctness flag and the random draw of one call. Returns
the final queue together with the word ids removed by mastery, in order.
An empty-queue error stops the run. -/
def runAnswers : List QueueEntry → List (Bool × Nat) → List QueueEntry × List String
  | q, [] => (q, [])
  | q, (c, j) :: rest =>
    match processAnswer q c j with
    | none => (q, [])
    | some res =>
      ((runAnswers res.newQueue rest).1,
       (if res.wasMastered then [res.entry.wordId] else []) ++
         (runAnswers res.newQueue rest).2)

/-- `zs` is an order-preserving interleaving of `xs` and `ys`. -/
inductive IsInterleaving {α : Type} : List α → List α → List α → Prop where
  | nil : IsInterleaving [] [] []
  | left {x : α} {xs ys zs : List α} :
      IsInterleaving xs ys zs → IsInterleaving (x :: xs) ys (x :: zs)
  | right {y : α} {xs ys zs : List α} :
      IsInterleaving xs ys zs → IsInterleaving xs (y :: ys) (y :: zs)

/-- The closed-form shape of the initial queue, written from the observed
behaviour: while review words remain, a block of (up to) 5 new words followed
by one review word; when the review words are exhausted, all remaining new
words drain in one final run. Compared against `buildInitialQueue` in the
shape theorems. -/
def chunked {α : Type} (ns : List α) : List α → List α
  | [] => ns
  | r :: rs => if ns.isEmpty then r :: rs else ns.take 5 ++ r :: chunked (ns.drop 5) rs

/-- The per-word update `completeSession` applies, extracted verbatim from
its `updatedWords` lambda for use in the theorems: untouched words are
returned unchanged, mastered words advance, words with a wrong recorded
answer drop, others keep their level; the next review date and status are
recomputed. -/
def completionWordUpdate (cs : DrillSession) (masteredIds : List String)
    (today : Int) (w : Word) : Word :=
  if !((cs.wordResults.map (fun r => r.wordId)).contains w.id) then w
  else
    let newLevel :=
      if masteredIds.contains w.id then advanceLevel w.level
      else if ((cs.wordResults.filter (fun r => !r.isCorrect)).map (fun r => r.wordId)).contains w.id then
        dropLevel w.level
      else w.level
    let newStatus : WordStatus :=
      if newLevel ≥ 6 then WordStatus.learned
      else if w.totalAttempts > 0 then WordStatus.learning
      else WordStatus.new
    { w with
      level := newLevel
      nextReviewDate := calculateNextReviewDate newLevel today
      status := newStatus }

/-- The groups component `completeSession` computes when the current
session's group is `g`, extracted verbatim from the source for use in the
theorems: bump the group's completed-session count, recompute its aggregate
accuracy from the (updated) words, and unlock the group at the next index
when the accuracy is at least 80 and the bumped count is at least 2. -/
def completionGroups (s : StoreState) (cs : DrillSession) (g : WordGroup)
    (today : Int) : List WordGroup :=
  let updatedWords := s.words.map (completionWordUpdate cs s.sessionMasteredIds today)
  let groupWords := updatedWords.filter (fun w => w.groupId == g.id)
  let groupCorrect := groupWords.foldl (fun sum w => sum + w.totalCorrect) 0
  let groupTotal := groupWords.foldl (fun sum w => sum + w.totalAttempts) 0
  let groupAccuracy := calculateAccuracy groupCorrect groupTotal
  let updatedGroup : WordGroup :=
    { g with completedSessions := g.completedSessions + 1, accuracy := groupAccuracy }
  let groups1 := s.groups.map (fun x => if x.id == g.id then updatedGroup else x)
  if groupAccuracy ≥ 80 ∧ updatedGroup.completedSessions ≥ 2 then
    match groups1[groups1.findIdx (fun x => x.id == g.id) + 1]? with
    | some nextGroup =>
      groups1.set (groups1.findIdx (fun x => x.id == g.id) + 1)
        { nextGroup with isUnlocked := true }
    | none => groups1
  else groups1

/-- A never-attempted ("new") word, for concrete instances. -/
def sampleNewWord (i : String) : Word :=
  { id := i, portuguese := "palavra", groupId := "g1", level := 0, nextReviewDate := 0
    totalAttempts := 0, totalCorrect := 0, totalWrong := 0, isMuted := false
    status := WordStatus.new }

/-- A previously-attempted ("review") word, for concrete instances. -/
def sampleReviewWord (i : String) : Word :=
  { id := i, portuguese := "palavra", groupId := "g1", level := 1, nextReviewDate := 0
    totalAttempts := 3, totalCorrect := 2, totalWrong := 1, isMuted := false
    status := WordStatus.learning }

/-- Eleven new words followed by one review word: concrete input for the
initial-queue shape analysis. -/
def elevenNewOneReview : List Word :=
  [sampleNewWord "n01", sampleNewWord "n02", sampleNewWord "n03", sampleNewWord "n04",
   sampleNewWord "n05", sampleNewWord "n06", sampleNewWord "n07", sampleNewWord "n08",
   sampleNewWord "n09", sampleNewWord "n10", sampleNewWord "n11", sampleReviewWord "r1"]

/-- A baseline app-state record for concrete instances. -/
def sampleAppState : AppState :=
  { totalWordsLearned := 0, overallAccuracy := 0, dailyStreak := 0, lastSessionDate := none }

/-- An active two-entry-queue store: words `a` (streak 2 at the head) and
`b`, an empty answer log. -/
def exampleTwoEntryState : StoreState :=
  { words := [sampleReviewWord "a", sampleReviewWord "b"]
    groups := [{ id := "g1", isUnlocked := true, completedSessions := 0, accuracy := 0 }]
    sessions := []
    currentSession := some { groupId := "g1", completedAt := none, wordResults := [], accuracy := 0 }
    sessionQueue := [⟨"a", 2⟩, ⟨"b", 0⟩]
    sessionMasteredIds := []
    appState := sampleAppState
    error := none }

/-- An active store whose session queue is empty. -/
def exampleEmptyQueueState : StoreState :=
  { words := [sampleReviewWord "a"]
    groups := [{ id := "g1", isUnlocked := true, completedSessions := 0, accuracy := 0 }]
    sessions := []
    currentSession := some { groupId := "g1", completedAt := none, wordResults := [], accuracy := 0 }
    sessionQueue := []
    sessionMasteredIds := []
    appState := sampleAppState
    error := none }

/-- A store whose current session has already been completed
(`completedAt` set), with a non-empty queue left over. -/
def exampleCompletedState : StoreState :=
  { words := [sampleReviewWord "a", sampleReviewWord "b"]
    groups := [{ id := "g1", isUnlocked := true, completedSessions := 1, accuracy := 0 }]
    sessions := []
    currentSession := some { groupId := "g1", completedAt := some 50, wordResults := [], accuracy := 0 }
    sessionQueue := [⟨"a", 0⟩, ⟨"b", 0⟩]
    sessionMasteredIds := []
    appState := sampleAppState
    error := none }

/-- A store for the unlock analysis: its single word carries lifetime
counters 159 correct of 200 attempts (79.5 % raw accuracy), the containing
group `g1` has one prior completed session, and a locked `g2` follows. -/
def exampleAccuracyState : StoreState :=
  { words := [{ id := "a", portuguese := "palavra", groupId := "g1", level := 3
                nextReviewDate := 0, totalAttempts := 200, totalCorrect := 159
                totalWrong := 41, isMuted := false, status := WordStatus.learning }]
    groups := [{ id := "g1", isUnlocked := true, completedSessions := 1, accuracy := 0 },
               { id := "g2", isUnlocked := false, completedSessions := 0, accuracy := 0 }]
    sessions := []
    currentSession := some { groupId := "g1", completedAt := none
                             wordResults := [{ wordId := "a", userAnswer := "palavra"
                                               correctAnswer := "palavra", isCorrect := true
                                               isNearMatch := false }]
                             accuracy := 0 }
    sessionQueue := []
    sessionMasteredIds := []
    appState := sampleAppState
    error := none }

/-- The unlock-analysis store with `g1` at zero prior completed sessions:
completing a session bumps its count only to 1, below the unlock
threshold. -/
def exampleFirstCompletionState : StoreState :=
  { exampleAccuracyState with
    groups := [{ id := "g1", isUnlocked := true, completedSessions := 0, accuracy := 0 },
               { id := "g2", isUnlocked := false, completedSessions := 0, accuracy := 0 }] }

/-- A store for the completion-level analysis (the spec's Scenario A): word
`a` at level 2 was mastered this session. -/
def exampleMasteryState : StoreState :=
  { words := [{ id := "a", portuguese := "palavra", groupId := "g1", level := 2
                nextReviewDate := 0, totalAttempts := 7, totalCorrect := 6
                totalWrong := 1, isMuted := false, status := WordStatus.learning }]
    groups := [{ id := "g1", isUnlocked := true, completedSessions := 0, accuracy := 0 }]
    sessions := []
    currentSession := some { groupId := "g1", completedAt := none
                             wordResults := [{ wordId := "a", userAnswer := "palavra"
                                               correctAnswer := "palavra", isCorrect := true
                                               isNearMatch := false }]
                             accuracy := 0 }
    sessionQueue := []
    sessionMasteredIds := ["a"]
    appState := sampleAppState
    error := none }

/-! ## Queue-engine lemmas -/

theorem insertAt_perm (pos : Nat) (a : α) (l : List α) :
    (insertAt pos a l).Perm (a :: l) := by
  unfold insertAt
  have h1 : (l.take pos ++ a :: l.drop pos).Perm (a :: (l.take pos ++ l.drop pos)) :=
    List.perm_middle
  rwa [List.take_append_drop] at h1

/-- One `processAnswer` step preserves the multiset of word ids, the mastered
id included. -/
theorem processAnswer_step_perm (q : List QueueEntry) (c : Bool) (j : Nat)
    (res : ProcessAnswerResult) (h : processAnswer q c j = some res) :
    (res.newQueue.map QueueEntry.wordId ++
      (if res.wasMastered then [res.entry.wordId] else [])).Perm
      (q.map QueueEntry.wordId) := by
  match q with
  | [] => simp [processAnswer] at h
  | front :: rest =>
    cases c with
    | false =>
      simp only [processAnswer, Bool.false_eq_true, if_false, Option.some.injEq] at h
      subst h
      simp only [if_false]
      have hp := (insertAt_perm (getWrongReinsertPosition rest.length j)
        ({ front with sessionCorrectStreak := 0 } : QueueEntry) rest).map QueueEntry.wordId
      simpa using hp
    | true =>
      by_cases h4 : front.sessionCorrectStreak + 1 ≥ 4
      · simp only [processAnswer, if_true, h4, if_pos, Option.some.injEq] at h
        subst h
        simp [List.perm_append_singleton]
      · simp only [processAnswer, if_true, h4, if_false, iff_false, Option.some.injEq] at h
        subst h
        simp only [if_false]
        have hp := (insertAt_perm
          (getCorrectReinsertPosition (front.sessionCorrectStreak + 1) rest.length j)
          ({ front with sessionCorrectStreak := front.sessionCorrectStreak + 1 } : QueueEntry)
          rest).map QueueEntry.wordId
        simpa using hp

/-! ## C1 — mastery at streak 4, reset on a wrong answer -/

/-- **C1**: on a non-empty queue, a correct answer whose incremented streak
reaches 4 removes the head entry from the queue (the new queue is exactly the
remaining entries) and reports `wasMastered = true` on that same call; a wrong
answer keeps the entry with its session streak reset to 0 and `wasMastered =
false`; and a correct answer masters exactly when the incremented streak
reaches 4 — so after a reset, four fresh consecutive correct answers are
needed. -/
theorem claim_C1_mastery_streak (e : QueueEntry) (rest : List QueueEntry) (j : Nat) :
    (e.sessionCorrectStreak + 1 ≥ 4 →
      processAnswer (e :: rest) true j =
        some { newQueue := rest
               entry := { e with sessionCorrectStreak := e.sessionCorrectStreak + 1 }
               wasMastered := true }) ∧
    (∃ res, processAnswer (e :: rest) false j = some res ∧
       res.entry.sessionCorrectStreak = 0 ∧ res.wasMastered = false ∧
       res.entry.wordId = e.wordId) ∧
    (∀ (e2 : QueueEntry) (q : List QueueEntry) (j2 : Nat) (res : ProcessAnswerResult),
       processAnswer (e2 :: q) true j2 = some res →
       (res.wasMastered = true ↔ 4 ≤ e2.sessionCorrectStreak + 1)) := by
  refine ⟨fun h => by simp [processAnswer, h], ⟨_, rfl, rfl, rfl, rfl⟩, ?_⟩
  intro e2 q j2 res h
  by_cases h4 : 4 ≤ e2.sessionCorrectStreak + 1
  · simp only [processAnswer, if_true, h4, if_pos, Option.some.injEq] at h
    subst h
    simpa using h4
  · simp only [processAnswer, if_true, h4, if_false, iff_false, Option.some.injEq] at h
    subst h
    simpa using h4

/-- Witness for C1 at a concrete queue. -/
theorem claim_C1_mastery_streak_witness :
    processAnswer [⟨"w", 3⟩, ⟨"v", 0⟩] true 0 =
      some { newQueue := [⟨"v", 0⟩], entry := ⟨"w", 4⟩, wasMastered := true } ∧
    (∃ res, processAnswer [⟨"w", 2⟩, ⟨"v", 0⟩] false 0 = some res ∧
       res.entry.sessionCorrectStreak = 0 ∧ res.wasMastered = false ∧
       res.entry.wordId = "w") :=
  ⟨(claim_C1_mastery_streak ⟨"w", 3⟩ [⟨"v", 0⟩] 0).1 (by decide),
   (claim_C1_mastery_streak ⟨"w", 2⟩ [⟨"v", 0⟩] 0).2.1⟩

/-! ## C2 — reinsertion offsets -/

/-- **C2**: the transition reinserts the popped head at an offset into the
remaining queue determined by the new streak — new streak 1 at an offset in
[5,6], new streak 2 in [10,12], new streak 3 at exactly 20, and a wrong
answer in [2,3] — each offset clamped to the length of the remaining queue. -/
theorem claim_C2_reinsert_positions (e : QueueEntry) (rest : List QueueEntry) (j : Nat) :
    (e.sessionCorrectStreak = 0 →
      ∃ t, 5 ≤ t ∧ t ≤ 6 ∧
        processAnswer (e :: rest) true j =
          some { newQueue := insertAt (min t rest.length) { e with sessionCorrectStreak := 1 } rest
                 entry := { e with sessionCorrectStreak := 1 }
                 wasMastered := false }) ∧
    (e.sessionCorrectStreak = 1 →
      ∃ t, 10 ≤ t ∧ t ≤ 12 ∧
        processAnswer (e :: rest) true j =
          some { newQueue := insertAt (min t rest.length) { e with sessionCorrectStreak := 2 } rest
                 entry := { e with sessionCorrectStreak := 2 }
                 wasMastered := false }) ∧
    (e.sessionCorrectStreak = 2 →
      processAnswer (e :: rest) true j =
        some { newQueue := insertAt (min 20 rest.length) { e with sessionCorrectStreak := 3 } rest
               entry := { e with sessionCorrectStreak := 3 }
               wasMastered := false }) ∧
    (∃ t, 2 ≤ t ∧ t ≤ 3 ∧
      processAnswer (e :: rest) false j =
        some { newQueue := insertAt (min t rest.length) { e with sessionCorrectStreak := 0 } rest
               entry := { e with sessionCorrectStreak := 0 }
               wasMastered := false }) := by
  refine ⟨fun h => ⟨5 + j % 2, by omega, by omega, ?_⟩,
          fun h => ⟨10 + j % 3, by omega, by omega, ?_⟩,
          fun h => ?_,
          ⟨2 + j % 2, by omega, by omega, ?_⟩⟩
  · simp [processAnswer, getCorrectReinsertPosition, h]
  · simp [processAnswer, getCorrectReinsertPosition, h]
  · simp [processAnswer, getCorrectReinsertPosition, h]
  · simp [processAnswer, getWrongReinsertPosition]

/-- Witness for C2 at concrete queues (streak 0 correct, and a wrong answer). -/
theorem claim_C2_reinsert_positions_witness :
    (∃ t, 5 ≤ t ∧ t ≤ 6 ∧
      processAnswer [⟨"w", 0⟩, ⟨"v", 2⟩] true 1 =
        some { newQueue := insertAt (min t 1) (⟨"w", 1⟩ : QueueEntry) [⟨"v", 2⟩]
               entry := ⟨"w", 1⟩
               wasMastered := false }) ∧
    (∃ t, 2 ≤ t ∧ t ≤ 3 ∧
      processAnswer [⟨"w", 2⟩, ⟨"v", 2⟩] false 0 =
        some { newQueue := insertAt (min t 1) (⟨"w", 0⟩ : QueueEntry) [⟨"v", 2⟩]
               entry := ⟨"w", 0⟩
               wasMastered := false }) :=
  ⟨(claim_C2_reinsert_positions ⟨"w", 0⟩ [⟨"v", 2⟩] 1).1 rfl,
   (claim_C2_reinsert_positions ⟨"w", 2⟩ [⟨"v", 2⟩] 0).2.2.2⟩

/-! ## C3 — the queue's multiset of word ids is preserved -/

/-- **C3**: over any sequence of transitions, the multiset of queue word ids
is preserved — the final queue's ids together with the mastered ids are a
permutation of the initial ids (no duplication, no loss) — and a single
transition removes an entry (rather than reinserting it) only on a correct
answer whose streak reaches 4. -/
theorem claim_C3_queue_multiset (q : List QueueEntry) (answers : List (Bool × Nat)) :
    ((runAnswers q answers).1.map QueueEntry.wordId ++ (runAnswers q answers).2).Perm
      (q.map QueueEntry.wordId) ∧
    (∀ (c : Bool) (j : Nat) (res : ProcessAnswerResult),
       processAnswer q c j = some res → res.wasMastered = true →
       c = true ∧ ∃ front rest2, q = front :: rest2 ∧
         4 ≤ front.sessionCorrectStreak + 1 ∧ res.newQueue = rest2) := by
  constructor
  · induction answers generalizing q with
    | nil => simp [runAnswers]
    | cons a rest ih =>
      obtain ⟨c, j⟩ := a
      cases hpa : processAnswer q c j with
      | none => simp [runAnswers, hpa]
      | some res =>
        simp only [runAnswers, hpa]
        have hstep := processAnswer_step_perm q c j res hpa
        have hih := ih res.newQueue
        have h1 : ((runAnswers res.newQueue rest).1.map QueueEntry.wordId ++
            ((if res.wasMastered then [res.entry.wordId] else []) ++
              (runAnswers res.newQueue rest).2)).Perm
            (((runAnswers res.newQueue rest).1.map QueueEntry.wordId ++
              (runAnswers res.newQueue rest).2) ++
              (if res.wasMastered then [res.entry.wordId] else [])) := by
          refine ((List.Perm.append_left _ List.perm_append_comm).trans ?_)
          rw [List.append_assoc]
        exact h1.trans ((hih.append_right _).trans hstep)
  · intro c j res h hm
    match q with
    | [] => simp [processAnswer] at h
    | front :: rest2 =>
      cases c with
      | false =>
        simp only [processAnswer, Bool.false_eq_true, if_false, Option.some.injEq] at h
        subst h
        simp at hm
      | true =>
        by_cases h4 : 4 ≤ front.sessionCorrectStreak + 1
        · simp only [processAnswer, if_true, h4, if_pos, Option.some.injEq] at h
          subst h
          exact ⟨rfl, front, rest2, rfl, h4, rfl⟩
        · simp only [processAnswer, if_true, h4, if_false, iff_false, Option.some.injEq] at h
          subst h
          simp at hm

/-- Witness for C3 at a concrete queue and answer sequence (one mastery, one
reinsertion). -/
theorem claim_C3_queue_multiset_witness :
    ((runAnswers [⟨"w", 3⟩, ⟨"v", 0⟩] [(true, 0), (false, 1)]).1.map QueueEntry.wordId ++
      (runAnswers [⟨"w", 3⟩, ⟨"v", 0⟩] [(true, 0), (false, 1)]).2).Perm
      (([⟨"w", 3⟩, ⟨"v", 0⟩] : List QueueEntry).map QueueEntry.wordId) ∧
    (true = true ∧ ∃ front rest2, ([⟨"w", 3⟩, ⟨"v", 0⟩] : List QueueEntry) = front :: rest2 ∧
       4 ≤ front.sessionCorrectStreak + 1 ∧
       ({ newQueue := [⟨"v", 0⟩], entry := ⟨"w", 4⟩, wasMastered := true } :
         ProcessAnswerResult).newQueue = rest2) :=
  ⟨(claim_C3_queue_multiset [⟨"w", 3⟩, ⟨"v", 0⟩] [(true, 0), (false, 1)]).1,
   (claim_C3_queue_multiset [⟨"w", 3⟩, ⟨"v", 0⟩] [(true, 0), (false, 1)]).2 true 0
     { newQueue := [⟨"v", 0⟩], entry := ⟨"w", 4⟩, wasMastered := true } (by decide) rfl⟩

/-! ## Initial-queue lemmas -/

/-- The source loop is the abstract interleaving loop with the entry
construction mapped over the result. -/
theorem buildQueueLoop_eq_map (ns rs : List Word) (c : Nat) :
    buildQueueLoop ns rs c = (interleaveLoop ns rs c).map entryOfWord := by
  induction ns, rs, c using interleaveLoop.induct with
  | case1 c => simp [buildQueueLoop, interleaveLoop]
  | case2 ns r rs c h ih =>
    cases ns with
    | nil => simp [buildQueueLoop, interleaveLoop, h, ih, entryOfWord]
    | cons n ns2 => simp [buildQueueLoop, interleaveLoop, h, ih, entryOfWord]
  | case3 r rs c h n ns2 ih => simp [buildQueueLoop, interleaveLoop, h, ih, entryOfWord]
  | case4 r rs c h ih => simp [buildQueueLoop, interleaveLoop, h, ih, entryOfWord]
  | case5 n ns c ih => simp [buildQueueLoop, interleaveLoop, ih, entryOfWord]

/-- The loop output is an order-preserving interleaving of its two inputs. -/
theorem interleaveLoop_isInterleaving {α : Type} (ns rs : List α) (c : Nat) :
    IsInterleaving ns rs (interleaveLoop ns rs c) := by
  induction ns, rs, c using interleaveLoop.induct with
  | case1 c =>
    simp only [interleaveLoop]
    exact .nil
  | case2 ns r rs c h ih =>
    cases ns with
    | nil =>
      simp only [interleaveLoop, if_pos h]
      exact .right ih
    | cons n ns2 =>
      simp only [interleaveLoop, if_pos h]
      exact .right ih
  | case3 r rs c h n ns2 ih =>
    simp only [interleaveLoop, if_neg h]
    exact .left ih
  | case4 r rs c h ih =>
    simp only [interleaveLoop, if_neg h]
    exact .right ih
  | case5 n ns c ih =>
    simp only [interleaveLoop]
    exact .left ih

/-- With no review words, the loop drains the new words in order. -/
theorem interleaveLoop_nil_right {α : Type} (ns : List α) (c : Nat) :
    interleaveLoop ns [] c = ns := by
  induction ns generalizing c with
  | nil => simp [interleaveLoop]
  | cons n ns ih => simp [interleaveLoop, ih]

/-- With no new words, the loop drains the review words in order. -/
theorem interleaveLoop_nil_left {α : Type} (rs : List α) (c : Nat) :
    interleaveLoop [] rs c = rs := by
  induction rs generalizing c with
  | nil => simp [interleaveLoop]
  | cons r rs ih => by_cases h : 5 ≤ c <;> simp [interleaveLoop, h, ih]

/-- Unrolling one review block: with `c` consecutive new words already
placed, the loop emits `5 - c` new words, then the review word, then
recurses with a reset counter. -/
theorem interleaveLoop_cons_review {α : Type} (ns : List α) (r : α) (rs : List α)
    (c : Nat) (hc : c ≤ 5) :
    interleaveLoop ns (r :: rs) c =
      ns.take (5 - c) ++ r :: interleaveLoop (ns.drop (5 - c)) rs 0 := by
  induction ns generalizing c with
  | nil => by_cases h : 5 ≤ c <;> simp [interleaveLoop, h]
  | cons n ns ih =>
    by_cases h : 5 ≤ c
    · have hc5 : c = 5 := le_antisymm hc h
      subst hc5
      simp [interleaveLoop]
    · have h1 : interleaveLoop (n :: ns) (r :: rs) c =
          n :: interleaveLoop ns (r :: rs) (c + 1) := by
        simp [interleaveLoop, h]
      rw [h1, ih (c + 1) (by omega)]
      have h2 : 5 - (c + 1) = 4 - c := by omega
      have h3 : 5 - c = (4 - c) + 1 := by omega
      rw [h2, h3, List.take_succ_cons, List.drop_succ_cons, List.cons_append]

/-- The loop, started with a reset counter, equals the closed-form
chunked shape. -/
theorem interleaveLoop_eq_chunked {α : Type} (ns rs : List α) :
    interleaveLoop ns rs 0 = chunked ns rs := by
  induction rs generalizing ns with
  | nil => simp [interleaveLoop_nil_right, chunked]
  | cons r rs ih =>
    rw [interleaveLoop_cons_review ns r rs 0 (by omega)]
    cases ns with
    | nil => simp [chunked, interleaveLoop_nil_left]
    | cons n ns2 => simp [chunked, ih]

/-- `takeWhile` over an all-satisfying prefix followed by a failing element. -/
theorem takeWhile_append_all {α : Type} (p : α → Bool) (xs : List α) (y : α)
    (zs : List α) (hxs : ∀ x ∈ xs, p x = true) (hy : p y = false) :
    (xs ++ y :: zs).takeWhile p = xs := by
  induction xs with
  | nil => simp [List.takeWhile_cons, hy]
  | cons x xs ih =>
    simp [List.takeWhile_cons, hxs x (List.mem_cons_self x xs),
      ih (fun a ha => hxs a (List.mem_cons_of_mem x ha))]

/-- Throttle property of the chunked shape: any suffix still containing a
review word starts with at most 5 new words in a row. -/
theorem chunked_throttle {α : Type} (p : α → Bool) (ns rs : List α)
    (hns : ∀ x ∈ ns, p x = true) (hrs : ∀ y ∈ rs, p y = false) (k : Nat)
    (hrev : ∃ y ∈ (chunked ns rs).drop k, p y = false) :
    (((chunked ns rs).drop k).takeWhile p).length ≤ 5 := by
  induction rs generalizing ns k with
  | nil =>
    obtain ⟨y, hy, hpy⟩ := hrev
    have hmem : y ∈ ns := List.mem_of_mem_drop hy
    rw [hns y hmem] at hpy
    cases hpy
  | cons r rs ih =>
    by_cases hne : ns = []
    · subst hne
      have hchunk : chunked ([] : List α) (r :: rs) = r :: rs := by
        simp [chunked]
      rw [hchunk]
      cases hdk : (r :: rs).drop k with
      | nil => simp [hdk]
      | cons z zs =>
        have hz : z ∈ r :: rs := by
          refine List.mem_of_mem_drop (n := k) ?_
          rw [hdk]
          exact List.mem_cons_self z zs
        simp [List.takeWhile_cons, hrs z hz]
    · have hchunk : chunked ns (r :: rs) = ns.take 5 ++ r :: chunked (ns.drop 5) rs := by
        cases ns with
        | nil => exact absurd rfl hne
        | cons n ns2 => simp [chunked]
      rw [hchunk]
      rw [hchunk] at hrev
      by_cases hk : k ≤ (ns.take 5).length
      · have hdrop : (ns.take 5 ++ r :: chunked (ns.drop 5) rs).drop k =
            (ns.take 5).drop k ++ r :: chunked (ns.drop 5) rs := by
          rw [List.drop_append_eq_append_drop]
          have h0 : k - (ns.take 5).length = 0 := by omega
          rw [h0, List.drop_zero]
        rw [hdrop, takeWhile_append_all p ((ns.take 5).drop k) r _
          (fun x hx => hns x (List.mem_of_mem_take (List.mem_of_mem_drop hx)))
          (hrs r (List.mem_cons_self r rs))]
        calc ((ns.take 5).drop k).length ≤ (ns.take 5).length := by
              rw [List.length_drop]; omega
          _ ≤ 5 := List.length_take_le 5 ns
      · have hdrop : (ns.take 5 ++ r :: chunked (ns.drop 5) rs).drop k =
            (chunked (ns.drop 5) rs).drop (k - (ns.take 5).length - 1) := by
          rw [List.drop_append_eq_append_drop]
          have h1 : (ns.take 5).drop k = [] := List.drop_eq_nil_of_le (by omega)
          obtain ⟨m, hm⟩ : ∃ m, k - (ns.take 5).length = m + 1 :=
            ⟨k - (ns.take 5).length - 1, by omega⟩
          rw [h1, List.nil_append, hm, List.drop_succ_cons]
          simp
        rw [hdrop]
        rw [hdrop] at hrev
        exact ih (ns.drop 5) (fun x hx => hns x (List.mem_of_mem_drop hx))
          (fun y hy => hrs y (List.mem_cons_of_mem r hy))
          (k - (ns.take 5).length - 1) hrev

/-! ## C6 — initial-queue construction -/

/-- **C6**: `buildInitialQueue` caps the candidates to the first
`sessionGoal` entries and partitions them into new (`totalAttempts = 0`) and
review (`totalAttempts > 0`) words; the produced queue is an order-preserving
interleaving of the two partitions (each as streak-0 entries); no suffix of
the word sequence that still contains a review word starts with more than 5
consecutive new words (a review word is forced in between); and when one
partition is empty the other drains in order. -/
theorem claim_C6_initial_queue (words : List Word) (sessionGoal : Nat)
    (ns rs : List Word)
    (hns : ns = (words.take sessionGoal).filter (fun w => w.totalAttempts == 0))
    (hrs : rs = (words.take sessionGoal).filter (fun w => decide (0 < w.totalAttempts))) :
    buildInitialQueue words sessionGoal = (interleaveLoop ns rs 0).map entryOfWord ∧
    IsInterleaving ns rs (interleaveLoop ns rs 0) ∧
    (∀ k, (∃ y ∈ (interleaveLoop ns rs 0).drop k, (y.totalAttempts == 0) = false) →
      (((interleaveLoop ns rs 0).drop k).takeWhile (fun w => w.totalAttempts == 0)).length ≤ 5) ∧
    (rs = [] → interleaveLoop ns rs 0 = ns) ∧
    (ns = [] → interleaveLoop ns rs 0 = rs) := by
  subst hns hrs
  refine ⟨?_, interleaveLoop_isInterleaving _ _ _, ?_,
    fun h => by rw [h]; exact interleaveLoop_nil_right _ _,
    fun h => by rw [h]; exact interleaveLoop_nil_left _ _⟩
  · simp [buildInitialQueue, buildQueueLoop_eq_map]
  · intro k hk
    rw [interleaveLoop_eq_chunked] at hk ⊢
    refine chunked_throttle _ _ _ ?_ ?_ k hk
    · intro x hx
      exact (List.mem_filter.mp hx).2
    · intro y hy
      have h2 := (List.mem_filter.mp hy).2
      simp only [decide_eq_true_eq] at h2
      simp only [beq_eq_false_iff_ne, ne_eq]
      omega

/-- Witness for C6 at a concrete candidate list. -/
theorem claim_C6_initial_queue_witness :
    buildInitialQueue [sampleNewWord "n1", sampleReviewWord "r1"] 10 =
      (interleaveLoop [sampleNewWord "n1"] [sampleReviewWord "r1"] 0).map entryOfWord :=
  (claim_C6_initial_queue [sampleNewWord "n1", sampleReviewWord "r1"] 10
    [sampleNewWord "n1"] [sampleReviewWord "r1"] (by decide) (by decide)).1

/-! ## C10 — the exact shape of the initial queue -/

/-- **C10 counterexample**: with 11 new words and 1 review word — both
partitions non-empty — the produced queue is 5 new entries, the review entry,
then a final run of SIX consecutive new entries. The claim's shape ("runs of
exactly 5 new entries each separated by a single review entry, until the new
partition is exhausted — the last run may be shorter — followed by all
remaining review entries") forbids any run of more than 5 new entries, so it
fails on this input: the suffix after the review entry is an all-new run of
length 6. -/
theorem claim_C10_counterexample :
    ((elevenNewOneReview.take 20).filter (fun w => w.totalAttempts == 0)).length = 11 ∧
    ((elevenNewOneReview.take 20).filter (fun w => decide (0 < w.totalAttempts))).length = 1 ∧
    buildInitialQueue elevenNewOneReview 20 =
      [⟨"n01", 0⟩, ⟨"n02", 0⟩, ⟨"n03", 0⟩, ⟨"n04", 0⟩, ⟨"n05", 0⟩, ⟨"r1", 0⟩,
       ⟨"n06", 0⟩, ⟨"n07", 0⟩, ⟨"n08", 0⟩, ⟨"n09", 0⟩, ⟨"n10", 0⟩, ⟨"n11", 0⟩] ∧
    (((buildInitialQueue elevenNewOneReview 20).drop 6).takeWhile
      (fun e => !(e.wordId == "r1"))).length = 6 := by
  have hq : buildInitialQueue elevenNewOneReview 20 =
      [⟨"n01", 0⟩, ⟨"n02", 0⟩, ⟨"n03", 0⟩, ⟨"n04", 0⟩, ⟨"n05", 0⟩, ⟨"r1", 0⟩,
       ⟨"n06", 0⟩, ⟨"n07", 0⟩, ⟨"n08", 0⟩, ⟨"n09", 0⟩, ⟨"n10", 0⟩, ⟨"n11", 0⟩] := by
    simp [buildInitialQueue, elevenNewOneReview, sampleNewWord, sampleReviewWord,
      buildQueueLoop]
  refine ⟨by decide, by decide, hq, ?_⟩
  rw [hq]
  decide

/-- **C10 amended**: with both partitions non-empty, the queue follows the
chunked shape `chunked`: blocks of (up to) 5 new words, each followed by one
review word, while review words remain; once the review words are exhausted,
all remaining new words drain in one final run — which may be longer than 5 —
and once the new words are exhausted, the remaining review words drain in
order; review words never appear earlier than the throttle forces. -/
theorem claim_C10_amended_shape (words : List Word) (sessionGoal : Nat)
    (ns rs : List Word)
    (hns : ns = (words.take sessionGoal).filter (fun w => w.totalAttempts == 0))
    (hrs : rs = (words.take sessionGoal).filter (fun w => decide (0 < w.totalAttempts)))
    (hne1 : ns ≠ []) (hne2 : rs ≠ []) :
    buildInitialQueue words sessionGoal = (chunked ns rs).map entryOfWord := by
  subst hns hrs
  simp [buildInitialQueue, buildQueueLoop_eq_map, interleaveLoop_eq_chunked]

/-- Witness for the amended C10 at a concrete candidate list. -/
theorem claim_C10_amended_shape_witness :
    buildInitialQueue [sampleNewWord "n1", sampleReviewWord "r1"] 10 =
      (chunked [sampleNewWord "n1"] [sampleReviewWord "r1"]).map entryOfWord :=
  claim_C10_amended_shape [sampleNewWord "n1", sampleReviewWord "r1"] 10
    [sampleNewWord "n1"] [sampleReviewWord "r1"] (by decide) (by decide)
    (by decide) (by decide)

/-! ## C4 — what submitAnswer does to the queue -/

/-- **C4 counterexample**: in a two-entry queue (head `a` with streak 2,
then `b`), a scored incorrect answer leaves the head at the front with its
streak reset — the queue becomes `[a(0), b]`. The claim requires the head to
be popped and reinserted at a clamped offset in [2,3]; with one remaining
entry both offsets clamp to 1, so the only queue the claim permits is
`[b, a(0)]`, which differs. -/
theorem claim_C4_counterexample :
    (submitAnswer exampleTwoEntryState "a" "xxx" 0).toOption.map StoreState.sessionQueue =
      some [⟨"a", 0⟩, ⟨"b", 0⟩] ∧
    insertAt (min 2 1) (⟨"a", 0⟩ : QueueEntry) [⟨"b", 0⟩] = [⟨"b", 0⟩, ⟨"a", 0⟩] ∧
    insertAt (min 3 1) (⟨"a", 0⟩ : QueueEntry) [⟨"b", 0⟩] = [⟨"b", 0⟩, ⟨"a", 0⟩] ∧
    ([⟨"a", 0⟩, ⟨"b", 0⟩] : List QueueEntry) ≠ [⟨"b", 0⟩, ⟨"a", 0⟩] := by
  refine ⟨by decide, by decide, by decide, by decide⟩

/-- **C4 amended**: a scored correct answer invokes the queue transition —
the queue becomes `processAnswer`'s new queue and the mastery flag is
captured in the mastered-id list; a scored incorrect answer does not invoke
the transition: the head entry stays at the front with its session streak
reset to 0 and the rest of the queue unchanged. -/
theorem claim_C4_amended_transitions (s : StoreState) (cs : DrillSession) (word : Word)
    (wordId answer : String) (j : Nat)
    (hcs : s.currentSession = some cs)
    (hw : s.words.find? (fun w => w.id == wordId) = some word) :
    ((jsToLower (jsTrim answer) == jsToLower word.portuguese) = true →
      ∀ res, processAnswer s.sessionQueue true j = some res →
        (submitAnswer s wordId answer j).toOption.map
            (fun s2 => (s2.sessionQueue, s2.sessionMasteredIds)) =
          some (res.newQueue,
            if res.wasMastered then s.sessionMasteredIds ++ [wordId]
            else s.sessionMasteredIds)) ∧
    ((jsToLower (jsTrim answer) == jsToLower word.portuguese) = false →
      (submitAnswer s wordId answer j).toOption.map StoreState.sessionQueue =
        some (match s.sessionQueue with
          | [] => s.sessionQueue
          | h :: t => { h with sessionCorrectStreak := 0 } :: t)) := by
  constructor
  · intro hc res hres
    simp [submitAnswer, hcs, hw, hc, hres, Except.toOption]
  · intro hc
    simp [submitAnswer, hcs, hw, hc, Except.toOption]

/-- Witness for the amended C4 (a correct and an incorrect answer on the
two-entry store). -/
theorem claim_C4_amended_transitions_witness :
    ((submitAnswer exampleTwoEntryState "a" "Palavra" 0).toOption.map
        (fun s2 => (s2.sessionQueue, s2.sessionMasteredIds)) =
      some ((insertAt (min 20 1) (⟨"a", 3⟩ : QueueEntry) [⟨"b", 0⟩]), [])) ∧
    ((submitAnswer exampleTwoEntryState "a" "xxx" 7).toOption.map StoreState.sessionQueue =
      some [⟨"a", 0⟩, ⟨"b", 0⟩]) :=
  ⟨by
    have h := (claim_C4_amended_transitions exampleTwoEntryState
      { groupId := "g1", completedAt := none, wordResults := [], accuracy := 0 }
      (sampleReviewWord "a") "a" "Palavra" 0 rfl (by decide)).1 (by decide)
      { newQueue := insertAt (min 20 1) (⟨"a", 3⟩ : QueueEntry) [⟨"b", 0⟩]
        entry := ⟨"a", 3⟩, wasMastered := false } (by decide)
    simpa using h,
   (claim_C4_amended_transitions exampleTwoEntryState
      { groupId := "g1", completedAt := none, wordResults := [], accuracy := 0 }
      (sampleReviewWord "a") "a" "xxx" 7 rfl (by decide)).2 (by decide)⟩

/-! ## C5 — blank input is not rejected by submitAnswer -/

/-- **C5 counterexample**: submitting the whitespace-only answer `"   "` is
not rejected: it is judged (incorrect), the word's counters move from 3
attempts / 1 wrong to 4 / 2, an answer record is appended to the log, and
the queue head's streak is reset — contradicting "mutates neither the
counters nor the session log nor the queue, and does not score an
attempt". -/
theorem claim_C5_counterexample :
    (submitAnswer exampleTwoEntryState "a" "   " 0).toOption.map
        (fun s2 => (s2.words.map (fun w => (w.id, w.totalAttempts, w.totalWrong)),
                    s2.currentSession.map (fun c2 => c2.wordResults.length),
                    s2.sessionQueue)) =
      some ([("a", 4, 2), ("b", 3, 1)], some 1, [⟨"a", 0⟩, ⟨"b", 0⟩]) ∧
    exampleTwoEntryState.words.map (fun w => (w.id, w.totalAttempts, w.totalWrong)) =
      [("a", 3, 1), ("b", 3, 1)] := by
  refine ⟨by decide, by decide⟩

/-- **C5 amended**: `submitAnswer` performs no blank-input check (the guard
lives in the UI layer, `DrillCard`, which refuses to call it on blank input).
A whitespace-only answer whose expected string is non-blank is judged like
any other answer — scored incorrect, incrementing `totalAttempts` and
`totalWrong` and appending an answer record to the log. -/
theorem claim_C5_amended_blank_scored (s : StoreState) (cs : DrillSession) (word : Word)
    (wordId answer : String) (j : Nat)
    (hcs : s.currentSession = some cs)
    (hw : s.words.find? (fun w => w.id == wordId) = some word)
    (hblank : jsTrim answer = "")
    (hexp : jsToLower word.portuguese ≠ "") :
    (submitAnswer s wordId answer j).toOption.map
        (fun s2 => (s2.words, s2.currentSession.map (fun c2 => c2.wordResults))) =
      some (s.words.map (fun w =>
              if w.id == wordId then
                { word with
                    totalAttempts := word.totalAttempts + 1
                    totalWrong := word.totalWrong + 1
                    status := if word.status == WordStatus.new && word.totalAttempts == 0
                              then WordStatus.learning else word.status }
              else w),
            some (cs.wordResults ++ [{ wordId := wordId, userAnswer := answer
                                       correctAnswer := word.portuguese, isCorrect := false
                                       isNearMatch := isNearMatch answer word.portuguese }])) := by
  have hc : (jsToLower (jsTrim answer) == jsToLower word.portuguese) = false := by
    rw [hblank]
    have h0 : jsToLower "" = "" := rfl
    rw [h0]
    exact beq_eq_false_iff_ne.mpr (fun h => hexp h.symm)
  simp [submitAnswer, hcs, hw, hc, Except.toOption]

/-- Witness for the amended C5 on the two-entry store. -/
theorem claim_C5_amended_blank_scored_witness :
    (submitAnswer exampleTwoEntryState "a" "   " 3).toOption.map
        (fun s2 => (s2.words, s2.currentSession.map (fun c2 => c2.wordResults))) =
      some (exampleTwoEntryState.words.map (fun w =>
              if w.id == "a" then
                { sampleReviewWord "a" with
                    totalAttempts := (sampleReviewWord "a").totalAttempts + 1
                    totalWrong := (sampleReviewWord "a").totalWrong + 1
                    status := if (sampleReviewWord "a").status == WordStatus.new &&
                                 (sampleReviewWord "a").totalAttempts == 0
                              then WordStatus.learning else (sampleReviewWord "a").status }
              else w),
            some ([] ++ [{ wordId := "a", userAnswer := "   "
                           correctAnswer := (sampleReviewWord "a").portuguese, isCorrect := false
                           isNearMatch := isNearMatch "   " (sampleReviewWord "a").portuguese }])) :=
  claim_C5_amended_blank_scored exampleTwoEntryState
    { groupId := "g1", completedAt := none, wordResults := [], accuracy := 0 }
    (sampleReviewWord "a") "a" "   " 3 rfl (by decide) (by decide) (by decide)

/-! ## C8 — precondition handling -/

/-- **C8 counterexample**: a scored incorrect answer on an empty queue does
not fail: `submitAnswer` returns `.ok`, the word's counters are mutated and
the answer is logged (the queue is silently left empty). Likewise, on a
session that is already completed (`completedAt` set), `submitAnswer`
proceeds and mutates state rather than failing. Both contradict "fails as a
PreconditionViolation checked before any mutation". -/
theorem claim_C8_counterexample :
    (submitAnswer exampleEmptyQueueState "a" "xxx" 0).toOption.map
        (fun s2 => (s2.words.map (fun w => (w.totalAttempts, w.totalWrong)),
                    s2.currentSession.map (fun c2 => c2.wordResults.length),
                    s2.sessionQueue)) =
      some ([(4, 2)], some 1, []) ∧
    exampleCompletedState.currentSession.map (fun c2 => c2.completedAt) = some (some 50) ∧
    (submitAnswer exampleCompletedState "a" "xxx" 0).toOption.map
        (fun s2 => (s2.words.map (fun w => (w.totalAttempts, w.totalWrong)),
                    s2.currentSession.map (fun c2 => c2.wordResults.length))) =
      some ([(4, 2), (3, 1)], some 1) := by
  refine ⟨by decide, by decide, by decide⟩

/-- **C8 amended**: the queue transition itself treats an empty queue as a
fatal error (`processAnswer` yields `none`, modelling the `throw`, never a
silent no-op); `submitAnswer` with a *correct* answer on an empty queue
propagates that error with no mutation (the model's `.error` result);
`submitAnswer` with no active session records an error message and changes
nothing else. There is no completed-session check, and an *incorrect* answer
on an empty queue is scored normally (see the counterexample). -/
theorem claim_C8_amended_preconditions (s : StoreState) (cs : DrillSession) (word : Word)
    (wordId answer : String) (c : Bool) (j : Nat)
    (hcs : s.currentSession = some cs)
    (hw : s.words.find? (fun w => w.id == wordId) = some word) :
    processAnswer [] c j = none ∧
    (s.sessionQueue = [] →
      (jsToLower (jsTrim answer) == jsToLower word.portuguese) = true →
      submitAnswer s wordId answer j = .error "Cannot process answer on empty queue") ∧
    (∀ s2 : StoreState, s2.currentSession = none →
      submitAnswer s2 wordId answer j = .ok { s2 with error := some "No active session" }) := by
  refine ⟨rfl, ?_, ?_⟩
  · intro hq hc
    simp [submitAnswer, hcs, hw, hc, hq, processAnswer]
  · intro s2 h2
    simp [submitAnswer, h2]

/-- Witness for the amended C8: a correct answer on the empty-queue store
errors; a store without a session only records an error message. -/
theorem claim_C8_amended_preconditions_witness :
    submitAnswer exampleEmptyQueueState "a" "palavra" 0 =
      .error "Cannot process answer on empty queue" ∧
    submitAnswer { exampleEmptyQueueState with currentSession := none } "a" "palavra" 0 =
      Except.ok { exampleEmptyQueueState with currentSession := none, error := some "No active session" } :=
  ⟨(claim_C8_amended_preconditions exampleEmptyQueueState
      { groupId := "g1", completedAt := none, wordResults := [], accuracy := 0 }
      (sampleReviewWord "a") "a" "palavra" true 0 rfl (by decide)).2.1 rfl (by decide),
   (claim_C8_amended_preconditions exampleEmptyQueueState
      { groupId := "g1", completedAt := none, wordResults := [], accuracy := 0 }
      (sampleReviewWord "a") "a" "palavra" true 0 rfl (by decide)).2.2
      { exampleEmptyQueueState with currentSession := none } rfl⟩

/-! ## Completion lemmas -/

/-- The words component of `completeSession` is the per-word update mapped
over the store's words. -/
theorem completeSession_words (s : StoreState) (cs : DrillSession) (g : WordGroup)
    (today : Int)
    (hcs : s.currentSession = some cs)
    (hg : s.groups.find? (fun x => x.id == cs.groupId) = some g) :
    (completeSession s today).words =
      s.words.map (completionWordUpdate cs s.sessionMasteredIds today) := by
  simp only [completeSession, hcs, hg]
  rfl

/-- The groups component of `completeSession` is `completionGroups`. -/
theorem completeSession_groups (s : StoreState) (cs : DrillSession) (g : WordGroup)
    (today : Int)
    (hcs : s.currentSession = some cs)
    (hg : s.groups.find? (fun x => x.id == cs.groupId) = some g) :
    (completeSession s today).groups = completionGroups s cs g today := by
  simp only [completeSession, hcs, hg]
  rfl

/-- The per-word completion update never changes a word's identity, group,
or lifetime counters. -/
theorem completionWordUpdate_preserves (cs : DrillSession) (ms : List String)
    (today : Int) (w : Word) :
    (completionWordUpdate cs ms today w).id = w.id ∧
    (completionWordUpdate cs ms today w).groupId = w.groupId ∧
    (completionWordUpdate cs ms today w).totalCorrect = w.totalCorrect ∧
    (completionWordUpdate cs ms today w).totalAttempts = w.totalAttempts := by
  unfold completionWordUpdate
  by_cases h : (!((cs.wordResults.map (fun r => r.wordId)).contains w.id)) = true
  · rw [if_pos h]
    exact ⟨rfl, rfl, rfl, rfl⟩
  · rw [if_neg h]
    exact ⟨rfl, rfl, rfl, rfl⟩

/-- A pointwise projection-preserving map leaves additive folds unchanged. -/
theorem foldl_add_map {α : Type} (f : α → α) (proj : α → Nat)
    (hp : ∀ a, proj (f a) = proj a) (l : List α) (n : Nat) :
    (l.map f).foldl (fun sum a => sum + proj a) n =
      l.foldl (fun sum a => sum + proj a) n := by
  induction l generalizing n with
  | nil => rfl
  | cons x l ih => simp [List.foldl_cons, hp, ih]

/-- A pointwise predicate-preserving map commutes with `filter`. -/
theorem filter_map_preserving {α : Type} (f : α → α) (p : α → Bool)
    (hp : ∀ a, p (f a) = p a) (l : List α) :
    (l.map f).filter p = (l.filter p).map f := by
  induction l with
  | nil => rfl
  | cons x l ih =>
    by_cases hx : p x = true <;> simp [List.filter_cons, hp, hx, ih]

/-- A pointwise predicate-preserving map leaves `findIdx` unchanged. -/
theorem findIdx_map_preserving {α : Type} (f : α → α) (p : α → Bool)
    (hp : ∀ a, p (f a) = p a) (l : List α) :
    (l.map f).findIdx p = l.findIdx p := by
  induction l with
  | nil => rfl
  | cons x l ih =>
    by_cases hx : p x = true <;> simp [List.findIdx_cons, hp, hx, ih]

/-! ## C7 — level changes at session completion -/

/-- **C7**: at session completion every word is mapped through the per-word
update, which: leaves a word never answered in the session untouched;
advances a mastered word's level by 1 (capped at 8); drops the level by 2
(floored at 0) for a word with any incorrect recorded answer; keeps the
level otherwise; and recomputes the next review date from the resulting
level via the fixed interval table in each touched case. -/
theorem claim_C7_completion_levels (s : StoreState) (cs : DrillSession) (g : WordGroup)
    (today : Int)
    (hcs : s.currentSession = some cs)
    (hg : s.groups.find? (fun x => x.id == cs.groupId) = some g) :
    (completeSession s today).words =
      s.words.map (completionWordUpdate cs s.sessionMasteredIds today) ∧
    (∀ w : Word, ((cs.wordResults.map (fun r => r.wordId)).contains w.id) = false →
      completionWordUpdate cs s.sessionMasteredIds today w = w) ∧
    (∀ w : Word, ((cs.wordResults.map (fun r => r.wordId)).contains w.id) = true →
      (s.sessionMasteredIds.contains w.id) = true →
      (completionWordUpdate cs s.sessionMasteredIds today w).level = advanceLevel w.level ∧
      (completionWordUpdate cs s.sessionMasteredIds today w).nextReviewDate =
        calculateNextReviewDate (advanceLevel w.level) today) ∧
    (∀ w : Word, ((cs.wordResults.map (fun r => r.wordId)).contains w.id) = true →
      (s.sessionMasteredIds.contains w.id) = false →
      (((cs.wordResults.filter (fun r => !r.isCorrect)).map (fun r => r.wordId)).contains w.id) = true →
      (completionWordUpdate cs s.sessionMasteredIds today w).level = dropLevel w.level ∧
      (completionWordUpdate cs s.sessionMasteredIds today w).nextReviewDate =
        calculateNextReviewDate (dropLevel w.level) today) ∧
    (∀ w : Word, ((cs.wordResults.map (fun r => r.wordId)).contains w.id) = true →
      (s.sessionMasteredIds.contains w.id) = false →
      (((cs.wordResults.filter (fun r => !r.isCorrect)).map (fun r => r.wordId)).contains w.id) = false →
      (completionWordUpdate cs s.sessionMasteredIds today w).level = w.level ∧
      (completionWordUpdate cs s.sessionMasteredIds today w).nextReviewDate =
        calculateNextReviewDate w.level today) := by
  refine ⟨completeSession_words s cs g today hcs hg, ?_, ?_, ?_, ?_⟩
  · intro w h1
    have hyes : (!((cs.wordResults.map (fun r => r.wordId)).contains w.id)) = true := by
      rw [h1]; rfl
    simp only [completionWordUpdate, hyes, if_true]
  · intro w h1 h2
    have hno : (!((cs.wordResults.map (fun r => r.wordId)).contains w.id)) = false := by
      rw [h1]; rfl
    simp only [completionWordUpdate, hno, h2, Bool.false_eq_true, if_false,
      eq_self_iff_true, if_true]
    exact ⟨trivial, trivial⟩
  · intro w h1 h2 h3
    have hno : (!((cs.wordResults.map (fun r => r.wordId)).contains w.id)) = false := by
      rw [h1]; rfl
    simp only [completionWordUpdate, hno, h2, h3, Bool.false_eq_true, if_false,
      eq_self_iff_true, if_true]
    exact ⟨trivial, trivial⟩
  · intro w h1 h2 h3
    have hno : (!((cs.wordResults.map (fun r => r.wordId)).contains w.id)) = false := by
      rw [h1]; rfl
    simp only [completionWordUpdate, hno, h2, h3, Bool.false_eq_true, if_false,
      eq_self_iff_true, if_true]
    exact ⟨trivial, trivial⟩

/-- Witness for C7: the spec's Scenario A — a word at level 2, mastered
in-session, advances to level 3 with its next review 7 days out. -/
theorem claim_C7_completion_levels_witness :
    (completeSession exampleMasteryState 100).words =
      exampleMasteryState.words.map
        (completionWordUpdate
          { groupId := "g1", completedAt := none
            wordResults := [{ wordId := "a", userAnswer := "palavra"
                              correctAnswer := "palavra", isCorrect := true
                              isNearMatch := false }]
            accuracy := 0 } ["a"] 100) ∧
    (completeSession exampleMasteryState 100).words.map
        (fun w => (w.level, w.nextReviewDate)) = [(3, 107)] :=
  ⟨(claim_C7_completion_levels exampleMasteryState
      { groupId := "g1", completedAt := none
        wordResults := [{ wordId := "a", userAnswer := "palavra"
                          correctAnswer := "palavra", isCorrect := true
                          isNearMatch := false }]
        accuracy := 0 }
      { id := "g1", isUnlocked := true, completedSessions := 0, accuracy := 0 }
      100 rfl (by decide)).1,
   by decide⟩

/-! ## C9 — group unlocking -/

/-- **C9 counterexample**: the group's lifetime aggregate accuracy is
159/200 = 79.5 %, strictly below 80 %, yet completing a session (its second)
unlocks the next group — because the source compares the *rounded*
percentage `Math.round(100·159/200) = 80` against 80. The claim asserts no
group is unlocked when the aggregate accuracy is below 80 %. -/
theorem claim_C9_counterexample :
    (159 * 5 < 200 * 4) ∧
    exampleAccuracyState.groups.map (fun g => (g.id, g.isUnlocked)) =
      [("g1", true), ("g2", false)] ∧
    (completeSession exampleAccuracyState 100).groups.map (fun g => (g.id, g.isUnlocked)) =
      [("g1", true), ("g2", true)] := by
  refine ⟨by decide, by decide, by decide⟩

/-- **C9 amended**: session completion unlocks the group at the next index
exactly when the *rounded* aggregate accuracy percentage
`calculateAccuracy (Σ totalCorrect) (Σ totalAttempts)` over the group's
words is at least 80 (so a raw accuracy of 79.5 % suffices) and the group's
completed-session count after this completion is at least 2 and a next group
exists. In every other case — rounded percentage below 80, or a completion
that bumps the count only to 1, or no group after the completed one — no
unlock flag changes: the groups are only updated with the bumped session
count and the recomputed accuracy. -/
theorem claim_C9_amended_unlock (s : StoreState) (cs : DrillSession) (g : WordGroup)
    (today : Int) (acc : Nat)
    (hcs : s.currentSession = some cs)
    (hg : s.groups.find? (fun x => x.id == cs.groupId) = some g)
    (hacc : acc = calculateAccuracy
      ((s.words.filter (fun w => w.groupId == g.id)).foldl (fun sum w => sum + w.totalCorrect) 0)
      ((s.words.filter (fun w => w.groupId == g.id)).foldl (fun sum w => sum + w.totalAttempts) 0)) :
    (∀ nx : WordGroup,
      s.groups[s.groups.findIdx (fun x => x.id == g.id) + 1]? = some nx →
      (nx.id == g.id) = false →
      80 ≤ acc → 2 ≤ g.completedSessions + 1 →
      (completeSession s today).groups[s.groups.findIdx (fun x => x.id == g.id) + 1]? =
        some { nx with isUnlocked := true }) ∧
    (acc < 80 →
      (completeSession s today).groups =
        s.groups.map (fun x => if x.id == g.id then
          { g with completedSessions := g.completedSessions + 1, accuracy := acc } else x)) ∧
    (g.completedSessions + 1 < 2 →
      (completeSession s today).groups =
        s.groups.map (fun x => if x.id == g.id then
          { g with completedSessions := g.completedSessions + 1, accuracy := acc } else x)) ∧
    (s.groups[s.groups.findIdx (fun x => x.id == g.id) + 1]? = none →
      (completeSession s today).groups =
        s.groups.map (fun x => if x.id == g.id then
          { g with completedSessions := g.completedSessions + 1, accuracy := acc } else x)) := by
  have hpres := completionWordUpdate_preserves cs s.sessionMasteredIds today
  have hfilter : ((s.words.map (completionWordUpdate cs s.sessionMasteredIds today)).filter
      (fun w => w.groupId == g.id)) =
      (s.words.filter (fun w => w.groupId == g.id)).map
        (completionWordUpdate cs s.sessionMasteredIds today) :=
    filter_map_preserving _ _ (fun w => by rw [(hpres w).2.1]) s.words
  have hsumC : (((s.words.map (completionWordUpdate cs s.sessionMasteredIds today)).filter
      (fun w => w.groupId == g.id)).foldl (fun sum w => sum + w.totalCorrect) 0) =
      ((s.words.filter (fun w => w.groupId == g.id)).foldl (fun sum w => sum + w.totalCorrect) 0) := by
    rw [hfilter]
    exact foldl_add_map _ (fun w => w.totalCorrect) (fun w => (hpres w).2.2.1) _ 0
  have hsumA : (((s.words.map (completionWordUpdate cs s.sessionMasteredIds today)).filter
      (fun w => w.groupId == g.id)).foldl (fun sum w => sum + w.totalAttempts) 0) =
      ((s.words.filter (fun w => w.groupId == g.id)).foldl (fun sum w => sum + w.totalAttempts) 0) := by
    rw [hfilter]
    exact foldl_add_map _ (fun w => w.totalAttempts) (fun w => (hpres w).2.2.2) _ 0
  have hidx : (s.groups.map (fun x => if x.id == g.id then
      { g with completedSessions := g.completedSessions + 1, accuracy := acc } else x)).findIdx
      (fun x => x.id == g.id) = s.groups.findIdx (fun x => x.id == g.id) := by
    refine findIdx_map_preserving _ _ (fun x => ?_) s.groups
    by_cases hx : (x.id == g.id) = true <;> simp [hx]
  have hgroups := completeSession_groups s cs g today hcs hg
  refine ⟨?_, ?_, ?_, ?_⟩
  · intro nx hnx hnxid h80 h2
    rw [hgroups]
    simp only [completionGroups, hsumC, hsumA, ← hacc]
    rw [if_pos ⟨h80, by omega⟩, hidx, List.getElem?_map, hnx]
    simp only [Option.map_some', hnxid, Bool.false_eq_true, if_false]
    have hlt : s.groups.findIdx (fun x => x.id == g.id) + 1 <
        (s.groups.map (fun x => if x.id == g.id then
          { g with completedSessions := g.completedSessions + 1, accuracy := acc } else x)).length := by
      rw [List.length_map]
      exact (List.getElem?_eq_some.mp hnx).1
    rw [List.getElem?_set, if_pos rfl, if_pos hlt]
  · intro hlt80
    rw [hgroups]
    simp only [completionGroups, hsumC, hsumA, ← hacc]
    rw [if_neg (by omega)]
  · intro hcount
    rw [hgroups]
    simp only [completionGroups, hsumC, hsumA, ← hacc]
    rw [if_neg (by omega)]
  · intro hnone
    rw [hgroups]
    simp only [completionGroups, hsumC, hsumA, ← hacc]
    by_cases hcond : acc ≥ 80 ∧ g.completedSessions + 1 ≥ 2
    · rw [if_pos hcond, hidx, List.getElem?_map, hnone]
      rfl
    · rw [if_neg hcond]

/-- Witness for the amended C9. On the 79.5 %-raw-accuracy store (rounded
percentage exactly 80, count bumped to 2) the next group `g2` comes back
unlocked; on the same store with `g1` at zero prior completed sessions, the
groups only receive the bump — `g2` stays locked, showing the count
condition is necessary. -/
theorem claim_C9_amended_unlock_witness :
    (completeSession exampleAccuracyState 100).groups[
        exampleAccuracyState.groups.findIdx (fun x => x.id == "g1") + 1]? =
      some { id := "g2", isUnlocked := true, completedSessions := 0, accuracy := 0 } ∧
    (completeSession exampleFirstCompletionState 100).groups =
      exampleFirstCompletionState.groups.map (fun x =>
        if x.id == "g1" then
          { id := "g1", isUnlocked := true, completedSessions := 0 + 1, accuracy := 80 }
        else x) ∧
    (completeSession exampleFirstCompletionState 100).groups.map
        (fun x => (x.id, x.isUnlocked)) = [("g1", true), ("g2", false)] := by
  have h1 := (claim_C9_amended_unlock exampleAccuracyState
    { groupId := "g1", completedAt := none
      wordResults := [{ wordId := "a", userAnswer := "palavra"
                        correctAnswer := "palavra", isCorrect := true
                        isNearMatch := false }]
      accuracy := 0 }
    { id := "g1", isUnlocked := true, completedSessions := 1, accuracy := 0 }
    100 80 rfl (by decide) (by decide)).1
    { id := "g2", isUnlocked := false, completedSessions := 0, accuracy := 0 }
    (by decide) (by decide) (by decide) (by decide)
  have h2 := (claim_C9_amended_unlock exampleFirstCompletionState
    { groupId := "g1", completedAt := none
      wordResults := [{ wordId := "a", userAnswer := "palavra"
                        correctAnswer := "palavra", isCorrect := true
                        isNearMatch := false }]
      accuracy := 0 }
    { id := "g1", isUnlocked := true, completedSessions := 0, accuracy := 0 }
    100 80 rfl (by decide) (by decide)).2.2.1 (by decide)
  exact ⟨by simpa using h1, by simpa using h2, by decide⟩

end VocabDrill
